import Mathlib

/-!
Verification development for the inferno flamegraph CLI
(`src/bin/flamegraph.rs`).  The repository ships only the CLI shell; the
`inferno::flamegraph` library it calls (tree building, layout, color
assignment, SVG rendering, palette-map persistence) is modelled here from
the design document, while the CLI shell itself (`Opt`, `into_parts`,
`main`, `fetch_consistent_palette_if_needed`,
`save_consistent_palette_if_needed`) is embedded directly from the Rust
source.  Rust `f64` configuration values that are only carried around
(never computed with) are embedded as rationals; `usize` as `Nat`.
-/

/-- The color palettes accepted by `--colors` (the `possible_values` list of
the `colors` field of `Opt` in `src/bin/flamegraph.rs`). -/
inductive Palette where
  | hot | mem | io | wakeup | java | js | perl
  | red | green | blue | aqua | yellow | purple | orange
deriving DecidableEq, Repr

/-- Modelled from the spec: background colors are an enumerated set of
gradients (yellow, blue, green, grey) or an explicit flat hex color. -/
inductive BackgroundColor where
  | yellow | blue | green | grey
  | flat (hex : String)
deriving DecidableEq, Repr

/-- Direction of the plot: normal flame graph or inverted icicle graph. -/
inductive Direction where
  | straight | inverted
deriving DecidableEq, Repr

/-- Modelled from the spec: a `PaletteMap` is a mapping from function name
to an RGB color; we embed it as an association list. -/
abbrev PaletteMap := List (String × String)

/-- Modelled from the spec: the name-attribute map built from a `--nameattr`
file maps a function name to a list of `key=value` SVG attribute pairs. -/
abbrev FuncFrameAttrsMap := List (String × List (String × String))

/-- A parsed collapsed-stack line: ordered frame names, a primary sample
count, and the (differential) secondary-count delta, zero when absent. -/
structure StackLine where
  stack : List String
  count : Nat
  delta : Int
deriving DecidableEq, Repr

/-- Modelled from the spec: a call-tree node holds an aggregate count, an
aggregate delta, a directly-attributed self count, and children keyed by
frame name, kept sorted alphabetically so iteration is deterministic. -/
inductive CTree where
  | mk (total : Nat) (totalDelta : Int) (selfCount : Nat)
       (children : List (String × CTree))
deriving Repr

def CTree.total : CTree → Nat
  | .mk t _ _ _ => t

def CTree.totalDelta : CTree → Int
  | .mk _ d _ _ => d

def CTree.selfCount : CTree → Nat
  | .mk _ _ s _ => s

def CTree.children : CTree → List (String × CTree)
  | .mk _ _ _ ch => ch

/-- A freshly created node. -/
def CTree.empty : CTree := .mk 0 0 0 []

/-- Insert-or-update in an alphabetically sorted child list: apply `f` to
the child named `n`, creating it (from `CTree.empty`) at its sorted
position when absent. -/
def insertWith (n : String) (f : CTree → CTree) :
    List (String × CTree) → List (String × CTree)
  | [] => [(n, f CTree.empty)]
  | (m, t) :: tl =>
    if n = m then (m, f t) :: tl
    else if n < m then (n, f CTree.empty) :: (m, t) :: tl
    else (m, t) :: insertWith n f tl

/-- Modelled from the spec: walk/create nodes along the stack path from the
root downward, incrementing each traversed node's aggregate count by the
tuple's count (and delta); the deepest node additionally accrues the self
count. -/
def addPath : List String → Nat → Int → CTree → CTree
  | [], c, d, .mk tot dtot s ch => .mk (tot + c) (dtot + d) (s + c) ch
  | nm :: rest, c, d, .mk tot dtot s ch =>
      .mk (tot + c) (dtot + d) s (insertWith nm (addPath rest c d) ch)

/-- Fold one parsed line into the tree. -/
def addLine (t : CTree) (l : StackLine) : CTree :=
  addPath l.stack l.count l.delta t

/-- Modelled from the spec: the call-tree builder folds all parsed tuples
into a single tree rooted at a virtual root node. -/
def buildTree (ls : List StackLine) : CTree :=
  ls.foldl addLine CTree.empty

/-- `DEFAULT_TITLE` exported by the library; the CLI compares `--title`
against it and its structopt default is the same string. -/
def DEFAULT_TITLE : String := "Flame Graph"

/-- Modelled from the spec: the engine `Options` configuration snapshot.
Fields are the ones the CLI assigns in `Opt::into_parts` (the hidden
`palette_map` reference is modelled separately, as the spec directs, as an
explicit context value threaded through the engine). -/
structure Options where
  colors : Palette
  bgcolors : Option BackgroundColor
  hash : Bool
  func_frameattrs : FuncFrameAttrsMap
  direction : Direction
  title : String
  subtitle : Option String
  image_width : Nat
  frame_height : Nat
  min_width : ℚ
  font_type : String
  font_size : Nat
  font_width : ℚ
  count_name : String
  name_type : String
  notes : String
  negate_differentials : Bool
  factor : ℚ
  pretty_xml : Bool
  no_javascript : Bool
deriving DecidableEq, Repr

/-- Modelled from the spec: `Options::default()` of the library. -/
def Options.default : Options where
  colors := .hot
  bgcolors := none
  hash := false
  func_frameattrs := []
  direction := .straight
  title := DEFAULT_TITLE
  subtitle := none
  image_width := 1200
  frame_height := 16
  min_width := 1/10
  font_type := "Verdana"
  font_size := 12
  font_width := 59/100
  count_name := "samples"
  name_type := "Function:"
  notes := ""
  negate_differentials := false
  factor := 1
  pretty_xml := false
  no_javascript := false

/-- The CLI argument record `Opt` of `src/bin/flamegraph.rs` (paths are
embedded as strings). -/
structure Opt where
  nameattr_file : Option String
  inverted : Bool
  infiles : List String
  colors : Palette
  bgcolors : Option BackgroundColor
  hash : Bool
  cp : Bool
  title : String
  subtitle : Option String
  image_width : Nat
  frame_height : Nat
  min_width : ℚ
  font_type : String
  font_size : Nat
  font_width : ℚ
  count_name : String
  name_type : String
  notes : String
  negate : Bool
  factor : ℚ
  quiet : Bool
  verbose : Nat
  pretty_xml : Bool
  no_javascript : Bool
deriving DecidableEq, Repr

/-- The `Opt` produced when no flag is supplied: every structopt
`default_value` of `src/bin/flamegraph.rs`, absent options empty. -/
def Opt.default : Opt where
  nameattr_file := none
  inverted := false
  infiles := []
  colors := .hot
  bgcolors := none
  hash := false
  cp := false
  title := "Flame Graph"
  subtitle := none
  image_width := 1200
  frame_height := 16
  min_width := 1/10
  font_type := "Verdana"
  font_size := 12
  font_width := 59/100
  count_name := "samples"
  name_type := "Function:"
  notes := ""
  negate := false
  factor := 1
  quiet := false
  verbose := 0
  pretty_xml := false
  no_javascript := false

/-- The statements of `Opt::into_parts` after the `nameattr` match: the
inverted/title logic and the field-by-field copies.  The Rust assigns
`negate_differentials` and `factor` twice with the same values, which
collapses to one assignment each. -/
def Opt.into_parts_rest (o : Opt) (options : Options) :
    List String × Options :=
  let options :=
    if o.inverted then
      let options := { options with direction := Direction.inverted }
      if o.title = DEFAULT_TITLE then
        { options with title := "Icicle Graph" }
      else options
    else options
  (o.infiles,
    { options with
      negate_differentials := o.negate
      factor := o.factor
      pretty_xml := o.pretty_xml
      no_javascript := o.no_javascript
      subtitle := o.subtitle
      image_width := o.image_width
      frame_height := o.frame_height
      min_width := o.min_width
      font_type := o.font_type
      font_size := o.font_size
      font_width := o.font_width
      count_name := o.count_name
      name_type := o.name_type
      notes := o.notes })

/-- `Opt::into_parts` of `src/bin/flamegraph.rs`, embedded statement by
statement.  The read of the `--nameattr` file
(`FuncFrameAttrsMap::from_file`, library code) is supplied as the oracle
`readAttrs`; the Rust `panic!` on its failure becomes `Except.error` with
the panic message. -/
def Opt.into_parts (o : Opt)
    (readAttrs : String → Except String FuncFrameAttrsMap) :
    Except String (List String × Options) :=
  let options := Options.default
  let options := { options with
    colors := o.colors, bgcolors := o.bgcolors, hash := o.hash }
  match o.nameattr_file with
  | some file =>
    match readAttrs file with
    | .ok m => .ok (o.into_parts_rest { options with func_frameattrs := m })
    | .error e => .error ("Error reading " ++ file ++ ": " ++ e)
  | none => .ok (o.into_parts_rest options)

/-- The observable state of the `palette.map` file on disk: absent,
present but unreadable/malformed, or present and well formed with the
given entries. -/
inductive FileState where
  | absent
  | malformed (msg : String)
  | wellFormed (entries : PaletteMap)
deriving DecidableEq, Repr

/-- Modelled from the spec: `PaletteMap::load_from_file_or_empty` of the
library loads the palette file permissively — a missing file yields the
empty map and is not an error, while an existing unreadable or malformed
file is an error. -/
def PaletteMap.load_from_file_or_empty (st : FileState) :
    Except String PaletteMap :=
  match st with
  | .absent => .ok []
  | .malformed msg => .error msg
  | .wellFormed entries => .ok entries

/-- Modelled from the spec: on save the palette file is rewritten in full,
sorted by function name for stable diffs, one `name<TAB>color` entry per
line. -/
def PaletteMap.serialize (pm : PaletteMap) : String :=
  String.intercalate "\n"
    ((pm.mergeSort (fun a b => a.1 ≤ b.1)).map
      (fun e => e.1 ++ "\t" ++ e.2))

/-- An observable event of one CLI run: a filesystem read, a filesystem
write, or the emission of the rendered SVG on standard output. -/
inductive RunEvent where
  | readFile (path : String)
  | wroteFile (path : String) (contents : String)
  | renderedSvg (svg : String)
deriving DecidableEq, Repr

/-- `fetch_consistent_palette_if_needed` of `src/bin/flamegraph.rs`: when
`--cp` is requested it loads the palette map from the palette file (one
read event); otherwise it returns `None` and never touches the
filesystem.  `fs` gives the on-disk state at each path. -/
def fetch_consistent_palette_if_needed (use_consistent_palette : Bool)
    (fs : String → FileState) (palette_file : String) :
    Except String (Option PaletteMap) × List RunEvent :=
  if use_consistent_palette then
    match PaletteMap.load_from_file_or_empty (fs palette_file) with
    | .ok m => (.ok (some m), [.readFile palette_file])
    | .error e => (.error e, [.readFile palette_file])
  else (.ok none, [])

/-- `save_consistent_palette_if_needed` of `src/bin/flamegraph.rs`: writes
the serialized palette map back to the palette file when one is present
(one write event), and does nothing otherwise. -/
def save_consistent_palette_if_needed (palette_map : Option PaletteMap)
    (palette_file : String) : Except String Unit × List RunEvent :=
  match palette_map with
  | some pm => (.ok (), [.wroteFile palette_file pm.serialize])
  | none => (.ok (), [])

/-- `PALETTE_MAP_FILE` of `src/bin/flamegraph.rs`. -/
def PALETTE_MAP_FILE : String := "palette.map"

mutual

/-- All frame names occurring in a subtree, in iteration order. -/
def CTree.names : CTree → List String
  | .mk _ _ _ ch => namesOfChildren ch

/-- Names of a child list and their subtrees. -/
def namesOfChildren : List (String × CTree) → List String
  | [] => []
  | (n, c) :: tl => n :: (CTree.names c ++ namesOfChildren tl)

end

/-- Association-list lookup in a palette map. -/
def lookupPalette : PaletteMap → String → Option String
  | [], _ => none
  | (k, v) :: tl, n => if k = n then some v else lookupPalette tl n

/-- Modelled from the spec: a deterministic color derived from a stable
hash of the frame name (not from call order). -/
def colorFromName (name : String) : String :=
  let h := name.data.foldl (fun a c => (a * 31 + c.toNat) % 16777216) 5381
  "rgb(" ++ toString (h % 256) ++ "," ++ toString ((h / 256) % 256) ++ ","
    ++ toString ((h / 65536) % 256) ++ ")"

/-- Modelled from the spec: in consistent-palette mode every frame name
absent from the palette map gets a deterministically derived color
inserted, so later renders reuse it. -/
def extendPalette (pm : PaletteMap) (names : List String) : PaletteMap :=
  names.foldl
    (fun m n =>
      match lookupPalette m n with
      | some _ => m
      | none => m ++ [(n, colorFromName n)]) pm

/-- Modelled from the spec: per-frame color selection.  Frames literally
named `-` get the neutral separator gray; consistent-palette entries win
next; hash mode derives the color from the name alone; otherwise the
injectable run-scoped random source (`seed`) is consulted. -/
def colorFor (hashMode : Bool) (pal : PaletteMap) (seed : Nat)
    (name : String) : String :=
  if name = "-" then "rgb(160,160,160)"
  else
    match lookupPalette pal name with
    | some c => c
    | none =>
      if hashMode then colorFromName name
      else colorFromName (toString seed ++ name)

/-- A laid-out frame rectangle: frame name, depth, x offset and width in
pixels (the y coordinate follows from depth, direction and frame height).
-/
structure FrameRect where
  name : String
  depth : Nat
  x : ℚ
  width : ℚ
deriving DecidableEq, Repr

/-- Width in pixels of a node with aggregate count `total` under root
aggregate `rootTotal`: proportional share of the image width, scaled by
the global factor. -/
def widthOf (imageWidth : Nat) (factor : ℚ) (rootTotal : Nat)
    (total : Nat) : ℚ :=
  if rootTotal = 0 then 0
  else (total : ℚ) * imageWidth * factor / (rootTotal : ℚ)

mutual

/-- Modelled from the spec: lay out one named node at `depth` starting at
`x`.  A node whose computed width falls below the configured minimum is
pruned together with its subtree (its count still contributed to ancestor
widths). -/
def layoutNode (imageWidth : Nat) (factor minWidth : ℚ) (rootTotal : Nat)
    (name : String) : CTree → Nat → ℚ → List FrameRect
  | .mk tot _ _ ch, depth, x =>
    let w := widthOf imageWidth factor rootTotal tot
    if w < minWidth then []
    else
      ⟨name, depth, x, w⟩
        :: layoutChildren imageWidth factor minWidth rootTotal ch (depth + 1) x
termination_by t _ _ => sizeOf t

/-- Lay out a sorted child list left to right: each child starts at the
cumulative width of its previously laid-out siblings. -/
def layoutChildren (imageWidth : Nat) (factor minWidth : ℚ) (rootTotal : Nat) :
    List (String × CTree) → Nat → ℚ → List FrameRect
  | [], _, _ => []
  | (n, c) :: tl, depth, x =>
    layoutNode imageWidth factor minWidth rootTotal n c depth x
      ++ layoutChildren imageWidth factor minWidth rootTotal tl depth
          (x + widthOf imageWidth factor rootTotal c.total)
termination_by l _ _ => sizeOf l

end

/-- Modelled from the spec: the layout of the whole tree — the root's
children laid out from depth 0 (the virtual root itself is not drawn). -/
def layoutTree (o : Options) (t : CTree) : List FrameRect :=
  layoutChildren o.image_width o.factor o.min_width t.total t.children 0 0

/-- Modelled from the spec: depth determines the y coordinate via the
frame height, and the direction flag flips the y-axis mapping (normal:
root at the bottom growing up; inverted icicle: root at the top growing
down). -/
def yOf (direction : Direction) (frameHeight : Nat) (depth : Nat) : Int :=
  match direction with
  | .inverted => (depth * frameHeight : Nat)
  | .straight => -((depth * frameHeight : Nat) : Int)

/-- One serialized SVG rectangle element with its clipped label. -/
def rectElem (direction : Direction) (frameHeight : Nat) (hashMode : Bool)
    (pal : PaletteMap) (seed : Nat) (r : FrameRect) : String :=
  "<rect x=\"" ++ toString r.x ++ "\" y=\""
    ++ toString (yOf direction frameHeight r.depth)
    ++ "\" width=\"" ++ toString r.width ++ "\" height=\""
    ++ toString frameHeight ++ "\" fill=\""
    ++ colorFor hashMode pal seed r.name
    ++ "\"/><title>" ++ r.name ++ "</title>"

/-- Modelled from the spec: the serialized SVG document as a list of
markup fragments — header with title/subtitle chrome, the optional
embedded interaction script, one element per visible rectangle, and the
closing tag.  Pretty-printing does not change this list, only how the
fragments are joined. -/
def renderLines (t : CTree) (o : Options) (pal : PaletteMap)
    (seed : Nat) : List String :=
  ["<svg width=\"" ++ toString o.image_width ++ "\">",
   "<title>" ++ o.title ++ "</title>",
   "<subtitle>" ++ (o.subtitle.getD "") ++ "</subtitle>",
   "<notes>" ++ o.notes ++ "</notes>"]
  ++ (if o.no_javascript then [] else ["<script>interaction</script>"])
  ++ (layoutTree o t).map
      (rectElem o.direction o.frame_height o.hash pal seed)
  ++ ["</svg>"]

/-- Compact serialization: the fragments concatenated directly. -/
def concatAll : List String → String
  | [] => ""
  | s :: tl => s ++ concatAll tl

/-- Pretty serialization: each fragment indented and newline-terminated. -/
def prettyAll : List String → String
  | [] => ""
  | s :: tl => "  " ++ s ++ "\n" ++ prettyAll tl

/-- `true` on the whitespace characters (space, newline, tab, carriage
return). -/
def isWsChar (c : Char) : Bool :=
  c = ' ' || c = '\n' || c = '\t' || c = '\r'

/-- Erase every whitespace character of a string. -/
def stripWs (s : String) : String :=
  ⟨s.data.filter (fun c => !isWsChar c)⟩

/-- Modelled from the spec: the rendered SVG document; the
pretty-printing toggle selects only how the markup fragments are joined.
-/
def renderSvg (t : CTree) (o : Options) (pal : PaletteMap)
    (seed : Nat) : String :=
  if o.pretty_xml then prettyAll (renderLines t o pal seed)
  else concatAll (renderLines t o pal seed)

/-- The engine context threaded through `flamegraph::from_files`: the
configuration snapshot, the optional consistent palette map (the target
of `options.palette_map` in the Rust), and the injectable run-scoped
random source. -/
structure EngineState where
  options : Options
  palette : Option PaletteMap
  seed : Nat
deriving DecidableEq, Repr

/-- Modelled from the spec: the color-assignment stage extends the
consistent palette map (when one is attached) with every frame name it
colors; the configuration snapshot is read, never written. -/
def colorStage (st : EngineState) (names : List String) : EngineState :=
  { st with palette := st.palette.map (fun pm => extendPalette pm names) }

/-- Modelled from the spec: `flamegraph::from_files` — parse inputs
(given here already parsed, one list per input file), concatenate them,
fold them into the call tree, run the color stage, and render the SVG.
Returns the engine state as it is after the call (the Rust passes
`&mut Options`) together with the produced SVG. -/
def from_files (st : EngineState) (inputs : List (List StackLine)) :
    EngineState × String :=
  let t := buildTree inputs.flatten
  let st' := colorStage st t.names
  (st', renderSvg t st'.options (st'.palette.getD []) st'.seed)

/-- Outcome of one CLI run: a Rust `panic!` with its message, or normal
completion with `main`'s `Result`. -/
inductive MainResult where
  | panicked (msg : String)
  | completed (result : Except String Unit)
deriving Repr

/-- `main` of `src/bin/flamegraph.rs` as a trace semantics (logger setup
elided: it performs no filesystem or output interaction).  External
effects are oracles: `fs` is the on-disk state, `readAttrs` the
name-attribute file reader, `inputs` the parsed input files, `outErr` an
I/O failure of the output sink during rendering (`none` = success).
Returns the outcome and the ordered list of observable events. -/
def mainRun (opt : Opt) (fs : String → FileState)
    (readAttrs : String → Except String FuncFrameAttrsMap)
    (inputs : List (List StackLine)) (outErr : Option String)
    (seed : Nat) : MainResult × List RunEvent :=
  match fetch_consistent_palette_if_needed opt.cp fs PALETTE_MAP_FILE with
  | (.error e, evs) =>
    (.panicked ("Error reading " ++ PALETTE_MAP_FILE ++ ": " ++ e), evs)
  | (.ok palette_map, evs) =>
    match opt.into_parts readAttrs with
    | .error msg => (.panicked msg, evs)
    | .ok (_infiles, options) =>
      let (st, svg) :=
        from_files ⟨options, palette_map, seed⟩ inputs
      match outErr with
      | some e => (.completed (.error e), evs)
      | none =>
        let (saveResult, sevs) :=
          save_consistent_palette_if_needed st.palette PALETTE_MAP_FILE
        match saveResult with
        | .ok _ =>
          (.completed (.ok ()), evs ++ [.renderedSvg svg] ++ sevs)
        | .error e =>
          (.completed (.error e), evs ++ [.renderedSvg svg] ++ sevs)

/-- Sample command line exercising several non-default settings. -/
def optSample : Opt :=
  { Opt.default with
    inverted := true, hash := true, image_width := 640,
    infiles := ["one.txt", "two.txt"], notes := "sample notes",
    negate := true }

/-- The parts `optSample` produces. -/
def sampleParts : List String × Options :=
  match optSample.into_parts (fun _ => Except.error "unused") with
  | .ok r => r
  | .error _ => ([], Options.default)

/-- Parts of the all-defaults command line. -/
def defaultParts : List String × Options :=
  match Opt.default.into_parts (fun _ => Except.error "unused") with
  | .ok r => r
  | .error _ => ([], Options.default)

/-- An inverted run with a user-supplied (non-default) title. -/
def optCustomInverted : Opt :=
  { Opt.default with inverted := true, title := "My Title" }

/-- A consistent-palette (`--cp`) command line. -/
def cpOpt : Opt := { Opt.default with cp := true }

/-- The parts `cpOpt` produces. -/
def cpParts : List String × Options :=
  match cpOpt.into_parts (fun _ => Except.error "unused") with
  | .ok r => r
  | .error _ => ([], Options.default)

/-- A command line supplying a `--nameattr` file. -/
def attrOpt : Opt := { Opt.default with nameattr_file := some "attrs.txt" }

theorem insertWith_insertWith_same (n : String) (f g : CTree → CTree)
    (l : List (String × CTree)) :
    insertWith n f (insertWith n g l) = insertWith n (fun t => f (g t)) l := by
  induction l with
  | nil => simp [insertWith]
  | cons hd tl ih =>
    obtain ⟨m, t⟩ := hd
    by_cases h1 : n = m
    · subst h1
      simp [insertWith]
    · by_cases h2 : n < m
      · simp [insertWith, h1, h2]
      · simp [insertWith, h1, h2, ih]

theorem insertWith_insertWith_ne {n m : String} (h : n ≠ m)
    (f g : CTree → CTree) (l : List (String × CTree)) :
    insertWith n f (insertWith m g l) = insertWith m g (insertWith n f l) := by
  induction l with
  | nil =>
    rcases lt_trichotomy n m with h1 | h1 | h1
    · simp [insertWith, h, Ne.symm h, h1, lt_asymm h1]
    · exact absurd h1 h
    · simp [insertWith, h, Ne.symm h, h1, lt_asymm h1]
  | cons hd tl ih =>
    obtain ⟨k, t⟩ := hd
    by_cases hnk : n = k
    · subst hnk
      rcases lt_trichotomy m n with h1 | h1 | h1
      · simp [insertWith, h, Ne.symm h, h1, lt_asymm h1]
      · exact absurd h1.symm h
      · simp [insertWith, h, Ne.symm h, h1, lt_asymm h1]
    · by_cases hmk : m = k
      · subst hmk
        rcases lt_trichotomy n m with h1 | h1 | h1
        · simp [insertWith, h, Ne.symm h, hnk, h1, lt_asymm h1]
        · exact absurd h1 h
        · simp [insertWith, h, Ne.symm h, hnk, h1, lt_asymm h1]
      · rcases lt_trichotomy n k with hnk1 | hnk1 | hnk1
        · rcases lt_trichotomy m k with hmk1 | hmk1 | hmk1
          · rcases lt_trichotomy n m with h1 | h1 | h1
            · simp [insertWith, h, Ne.symm h, hnk, hmk, hnk1, hmk1, h1,
                lt_asymm h1]
            · exact absurd h1 h
            · simp [insertWith, h, Ne.symm h, hnk, hmk, hnk1, hmk1, h1,
                lt_asymm h1]
          · exact absurd hmk1 hmk
          · have hnm : n < m := lt_trans hnk1 hmk1
            simp [insertWith, h, Ne.symm h, hnk, hmk, hnk1, hmk1,
              lt_asymm hmk1, hnm, lt_asymm hnm]
        · exact absurd hnk1 hnk
        · rcases lt_trichotomy m k with hmk1 | hmk1 | hmk1
          · have hmn : m < n := lt_trans hmk1 hnk1
            simp [insertWith, h, Ne.symm h, hnk, hmk, hnk1, hmk1,
              lt_asymm hnk1, hmn, lt_asymm hmn]
          · exact absurd hmk1 hmk
          · simp [insertWith, h, Ne.symm h, hnk, hmk, lt_asymm hnk1,
              lt_asymm hmk1, ih]

theorem addPath_comm (s₁ : List String) (c₁ : Nat) (d₁ : Int) :
    ∀ (s₂ : List String) (c₂ : Nat) (d₂ : Int) (t : CTree),
      addPath s₁ c₁ d₁ (addPath s₂ c₂ d₂ t)
        = addPath s₂ c₂ d₂ (addPath s₁ c₁ d₁ t) := by
  induction s₁ with
  | nil =>
    intro s₂ c₂ d₂ t
    obtain ⟨tot, dtot, s, ch⟩ := t
    cases s₂ with
    | nil =>
      simp [addPath, CTree.mk.injEq]
      all_goals omega
    | cons n₂ r₂ =>
      simp [addPath, CTree.mk.injEq]
      all_goals omega
  | cons n₁ r₁ ih =>
    intro s₂ c₂ d₂ t
    obtain ⟨tot, dtot, s, ch⟩ := t
    cases s₂ with
    | nil =>
      simp [addPath, CTree.mk.injEq]
      all_goals omega
    | cons n₂ r₂ =>
      by_cases hnn : n₁ = n₂
      · subst hnn
        have hch : insertWith n₁ (addPath r₁ c₁ d₁)
              (insertWith n₁ (addPath r₂ c₂ d₂) ch)
            = insertWith n₁ (addPath r₂ c₂ d₂)
              (insertWith n₁ (addPath r₁ c₁ d₁) ch) := by
          rw [insertWith_insertWith_same, insertWith_insertWith_same]
          congr 1
          funext x
          exact ih r₂ c₂ d₂ x
        simp [addPath, CTree.mk.injEq, hch]
        all_goals omega
      · simp [addPath, CTree.mk.injEq, insertWith_insertWith_ne hnn]
        all_goals omega

theorem addLine_comm (t : CTree) (a b : StackLine) :
    addLine (addLine t a) b = addLine (addLine t b) a :=
  addPath_comm b.stack b.count b.delta a.stack a.count a.delta t

/-- The call-tree fold is order-independent: permuting the parsed lines
leaves the merged tree unchanged. -/
theorem buildTree_perm {l₁ l₂ : List StackLine} (h : l₁.Perm l₂) :
    buildTree l₁ = buildTree l₂ :=
  h.foldl_eq' (fun a _ b _ t => addLine_comm t a b) CTree.empty

theorem renderLines_pretty_irrel (t : CTree) (o : Options) (pal : PaletteMap)
    (seed : Nat) (p : Bool) :
    renderLines t { o with pretty_xml := p } pal seed
      = renderLines t o pal seed := by
  cases o
  rfl

theorem data_stripWs (s : String) :
    (stripWs s).data = s.data.filter (fun c => !isWsChar c) := rfl

theorem stripWs_append (a b : String) :
    stripWs (a ++ b) = stripWs a ++ stripWs b := by
  apply String.ext
  simp [data_stripWs, List.filter_append]

theorem stripWs_prettyAll (ls : List String) :
    stripWs (prettyAll ls) = stripWs (concatAll ls) := by
  induction ls with
  | nil => rfl
  | cons s tl ih =>
    have h2 : stripWs "  " = "" := by decide
    have h3 : stripWs "\n" = "" := by decide
    have h4 : ∀ x : String, "" ++ x = x := fun x => by
      apply String.ext
      simp
    have h5 : ∀ x : String, x ++ "" = x := fun x => by
      apply String.ext
      simp
    simp only [prettyAll, concatAll, stripWs_append, ih, h2, h3, h4, h5]

/-- Characterization of `into_parts_rest`: which value each component of
the result carries. -/
theorem into_parts_rest_spec (o : Opt) (base : Options) :
    (o.into_parts_rest base).1 = o.infiles
    ∧ (o.into_parts_rest base).2
      = { base with
          direction := if o.inverted then .inverted else base.direction
          title :=
            if o.inverted ∧ o.title = DEFAULT_TITLE then "Icicle Graph"
            else base.title
          negate_differentials := o.negate
          factor := o.factor
          pretty_xml := o.pretty_xml
          no_javascript := o.no_javascript
          subtitle := o.subtitle
          image_width := o.image_width
          frame_height := o.frame_height
          min_width := o.min_width
          font_type := o.font_type
          font_size := o.font_size
          font_width := o.font_width
          count_name := o.count_name
          name_type := o.name_type
          notes := o.notes } := by
  refine ⟨rfl, ?_⟩
  by_cases hi : o.inverted
  · by_cases ht : o.title = DEFAULT_TITLE
    · simp [Opt.into_parts_rest, hi, ht]
    · simp [Opt.into_parts_rest, hi, ht]
  · simp [Opt.into_parts_rest, hi]

/-- Characterization of a successful `into_parts`: the result is
`into_parts_rest` applied to the defaults updated with the copied color
flags and the name-attribute map that was read (default when no
`--nameattr` file was given). -/
theorem into_parts_ok_shape {opt : Opt}
    {readAttrs : String → Except String FuncFrameAttrsMap}
    {infiles : List String} {options : Options}
    (h : opt.into_parts readAttrs = .ok (infiles, options)) :
    ∃ ffa : FuncFrameAttrsMap,
      (opt.nameattr_file = none → ffa = Options.default.func_frameattrs)
      ∧ (infiles, options) = opt.into_parts_rest
        { Options.default with
          colors := opt.colors, bgcolors := opt.bgcolors, hash := opt.hash,
          func_frameattrs := ffa } := by
  cases hf : opt.nameattr_file with
  | none =>
    simp only [Opt.into_parts, hf, Except.ok.injEq] at h
    exact ⟨Options.default.func_frameattrs, fun _ => rfl, h.symm⟩
  | some file =>
    simp only [Opt.into_parts, hf] at h
    cases hr : readAttrs file with
    | ok m =>
      simp only [hr, Except.ok.injEq] at h
      refine ⟨m, ?_, ?_⟩
      · intro hc
        cases hc
      · rw [← h]
    | error e =>
      simp only [hr] at h
      cases h

/-- Claim C6: `flamegraph::from_files` never mutates the configuration:
the engine state it returns carries the `Options` it was called with,
field for field. -/
theorem from_files_preserves_options (st : EngineState)
    (inputs : List (List StackLine)) :
    ((from_files st inputs).1).options = st.options := rfl

/-- Claim C4: reordering the parsed input lines, or splitting the same
lines differently across input files, yields an identical merged call
tree and an identical rendered layout. -/
theorem fold_order_independence (fs₁ fs₂ : List (List StackLine))
    (o : Options) (h : fs₁.flatten.Perm fs₂.flatten) :
    buildTree fs₁.flatten = buildTree fs₂.flatten
    ∧ layoutTree o (buildTree fs₁.flatten)
      = layoutTree o (buildTree fs₂.flatten) := by
  have ht := buildTree_perm h
  exact ⟨ht, by rw [ht]⟩

theorem fold_order_independence_witness :
    ([[⟨["a", "b"], 5, 0⟩, ⟨["a", "c"], 3, 0⟩], [⟨["a"], 2, 0⟩]]
        : List (List StackLine)).flatten.Perm
      ([[⟨["a"], 2, 0⟩], [⟨["a", "c"], 3, 0⟩, ⟨["a", "b"], 5, 0⟩]]
        : List (List StackLine)).flatten
    ∧ (buildTree ([[⟨["a", "b"], 5, 0⟩, ⟨["a", "c"], 3, 0⟩],
          [⟨["a"], 2, 0⟩]] : List (List StackLine)).flatten
        = buildTree ([[⟨["a"], 2, 0⟩],
          [⟨["a", "c"], 3, 0⟩, ⟨["a", "b"], 5, 0⟩]]
            : List (List StackLine)).flatten
      ∧ layoutTree Options.default
          (buildTree ([[⟨["a", "b"], 5, 0⟩, ⟨["a", "c"], 3, 0⟩],
            [⟨["a"], 2, 0⟩]] : List (List StackLine)).flatten)
        = layoutTree Options.default
          (buildTree ([[⟨["a"], 2, 0⟩],
            [⟨["a", "c"], 3, 0⟩, ⟨["a", "b"], 5, 0⟩]]
              : List (List StackLine)).flatten)) :=
  ⟨by decide, fold_order_independence _ _ Options.default (by decide)⟩

/-- Claim C5: given identical tree, options and palette state (palette
map and injected random seed), rendering is deterministic byte for byte
when the pretty-printing toggle agrees, and when it differs the two
outputs differ only in whitespace. -/
theorem render_deterministic_modulo_whitespace (t : CTree) (o : Options)
    (pal : PaletteMap) (seed : Nat) (p₁ p₂ : Bool) :
    (p₁ = p₂ →
      renderSvg t { o with pretty_xml := p₁ } pal seed
        = renderSvg t { o with pretty_xml := p₂ } pal seed)
    ∧ stripWs (renderSvg t { o with pretty_xml := p₁ } pal seed)
      = stripWs (renderSvg t { o with pretty_xml := p₂ } pal seed) := by
  have hl : ∀ p : Bool,
      renderSvg t { o with pretty_xml := p } pal seed
        = if p then prettyAll (renderLines t o pal seed)
          else concatAll (renderLines t o pal seed) := by
    intro p
    simp only [renderSvg, renderLines_pretty_irrel]
  constructor
  · intro hpp
    rw [hpp]
  · rw [hl p₁, hl p₂]
    cases p₁ <;> cases p₂ <;> simp [stripWs_prettyAll]

theorem render_deterministic_modulo_whitespace_witness :
    ((true : Bool) = false →
      renderSvg CTree.empty { Options.default with pretty_xml := true } [] 0
        = renderSvg CTree.empty
            { Options.default with pretty_xml := false } [] 0)
    ∧ stripWs (renderSvg CTree.empty
        { Options.default with pretty_xml := true } [] 0)
      = stripWs (renderSvg CTree.empty
          { Options.default with pretty_xml := false } [] 0) :=
  render_deterministic_modulo_whitespace CTree.empty Options.default [] 0
    true false

/-- Claim C7: a successful `Opt::into_parts` copies every CLI
configuration item into the corresponding engine `Options` field and
returns the input files unchanged as the first component. -/
theorem into_parts_copies_cli_fields {opt : Opt}
    {readAttrs : String → Except String FuncFrameAttrsMap}
    {infiles : List String} {options : Options}
    (h : opt.into_parts readAttrs = .ok (infiles, options)) :
    infiles = opt.infiles
    ∧ options.colors = opt.colors
    ∧ options.bgcolors = opt.bgcolors
    ∧ options.hash = opt.hash
    ∧ options.direction
      = (if opt.inverted then Direction.inverted else Direction.straight)
    ∧ options.negate_differentials = opt.negate
    ∧ options.factor = opt.factor
    ∧ options.pretty_xml = opt.pretty_xml
    ∧ options.no_javascript = opt.no_javascript
    ∧ options.subtitle = opt.subtitle
    ∧ options.image_width = opt.image_width
    ∧ options.frame_height = opt.frame_height
    ∧ options.min_width = opt.min_width
    ∧ options.font_type = opt.font_type
    ∧ options.font_size = opt.font_size
    ∧ options.font_width = opt.font_width
    ∧ options.count_name = opt.count_name
    ∧ options.name_type = opt.name_type
    ∧ options.notes = opt.notes := by
  obtain ⟨ffa, -, heq⟩ := into_parts_ok_shape h
  have h1 := congrArg Prod.fst heq
  have h2 := congrArg Prod.snd heq
  have hspec := into_parts_rest_spec opt
    { Options.default with
      colors := opt.colors, bgcolors := opt.bgcolors, hash := opt.hash,
      func_frameattrs := ffa }
  simp only at h1 h2
  rw [hspec.1] at h1
  rw [hspec.2] at h2
  subst h1
  subst h2
  refine ⟨rfl, rfl, rfl, rfl, ?_, rfl, rfl, rfl, rfl, rfl, rfl, rfl, rfl,
    rfl, rfl, rfl, rfl, rfl, rfl⟩
  by_cases hi : opt.inverted <;> simp [hi, Options.default]

theorem into_parts_copies_cli_fields_witness :
    sampleParts.1 = optSample.infiles
    ∧ sampleParts.2.colors = optSample.colors
    ∧ sampleParts.2.bgcolors = optSample.bgcolors
    ∧ sampleParts.2.hash = optSample.hash
    ∧ sampleParts.2.direction
      = (if optSample.inverted then Direction.inverted
         else Direction.straight)
    ∧ sampleParts.2.negate_differentials = optSample.negate
    ∧ sampleParts.2.factor = optSample.factor
    ∧ sampleParts.2.pretty_xml = optSample.pretty_xml
    ∧ sampleParts.2.no_javascript = optSample.no_javascript
    ∧ sampleParts.2.subtitle = optSample.subtitle
    ∧ sampleParts.2.image_width = optSample.image_width
    ∧ sampleParts.2.frame_height = optSample.frame_height
    ∧ sampleParts.2.min_width = optSample.min_width
    ∧ sampleParts.2.font_type = optSample.font_type
    ∧ sampleParts.2.font_size = optSample.font_size
    ∧ sampleParts.2.font_width = optSample.font_width
    ∧ sampleParts.2.count_name = optSample.count_name
    ∧ sampleParts.2.name_type = optSample.name_type
    ∧ sampleParts.2.notes = optSample.notes :=
  @into_parts_copies_cli_fields optSample (fun _ => Except.error "unused")
    sampleParts.1 sampleParts.2 rfl

/-- Claim C8: when `--minwidth` is not supplied (so the CLI default is in
force), the pruning threshold handed to the engine is 0.1 pixels. -/
theorem min_width_defaults_to_tenth {opt : Opt}
    {readAttrs : String → Except String FuncFrameAttrsMap}
    {infiles : List String} {options : Options}
    (hmw : opt.min_width = Opt.default.min_width)
    (h : opt.into_parts readAttrs = .ok (infiles, options)) :
    options.min_width = 1/10 := by
  obtain ⟨ffa, -, heq⟩ := into_parts_ok_shape h
  have h2 := congrArg Prod.snd heq
  have hspec := into_parts_rest_spec opt
    { Options.default with
      colors := opt.colors, bgcolors := opt.bgcolors, hash := opt.hash,
      func_frameattrs := ffa }
  simp only at h2
  rw [hspec.2] at h2
  subst h2
  exact hmw

theorem min_width_defaults_to_tenth_witness :
    Opt.default.min_width = Opt.default.min_width
    ∧ defaultParts.2.min_width = 1/10 :=
  ⟨rfl, @min_width_defaults_to_tenth Opt.default
    (fun _ => Except.error "unused") defaultParts.1 defaultParts.2 rfl rfl⟩

/-- Claim C9 (counter-evidence): with `--inverted --title "My Title"` the
code drops the user-supplied title — `into_parts` never copies
`Opt.title` into `Options.title`, so the engine receives the library
default "Flame Graph" rather than "My Title"; with the default title the
rename to "Icicle Graph" does fire. -/
theorem inverted_custom_title_dropped :
    optCustomInverted.title = "My Title"
    ∧ (optCustomInverted.into_parts (fun _ => Except.error "unused")).map
        (fun r => (r.2.direction, r.2.title))
      = .ok (Direction.inverted, "Flame Graph")
    ∧ (({ Opt.default with inverted := true } : Opt).into_parts
        (fun _ => Except.error "unused")).map (fun r => r.2.title)
      = .ok "Icicle Graph" :=
  ⟨rfl, rfl, rfl⟩

/-- Claim C3: when `--cp` is not requested the palette file is neither
read nor written: the fetch returns `None` with no filesystem event, the
save writes nothing and returns `Ok`, and a whole run's event trace
contains at most the SVG emission. -/
theorem no_cp_no_palette_file_io (opt : Opt) (fs : String → FileState)
    (readAttrs : String → Except String FuncFrameAttrsMap)
    (inputs : List (List StackLine)) (outErr : Option String) (seed : Nat)
    (f : String) (hcp : opt.cp = false) :
    fetch_consistent_palette_if_needed opt.cp fs f = (.ok none, [])
    ∧ save_consistent_palette_if_needed none f = (.ok (), [])
    ∧ ((mainRun opt fs readAttrs inputs outErr seed).2 = []
       ∨ ∃ svg, (mainRun opt fs readAttrs inputs outErr seed).2
           = [.renderedSvg svg]) := by
  have hfp : ∀ g : String,
      fetch_consistent_palette_if_needed opt.cp fs g = (.ok none, []) := by
    intro g
    simp [fetch_consistent_palette_if_needed, hcp]
  refine ⟨hfp f, rfl, ?_⟩
  cases hip : opt.into_parts readAttrs with
  | error msg =>
    left
    simp [mainRun, hfp, hip]
  | ok pr =>
    obtain ⟨inf, opts⟩ := pr
    cases outErr with
    | some e =>
      left
      simp [mainRun, hfp, hip]
    | none =>
      right
      simp only [mainRun, hfp, hip, from_files, colorStage,
        save_consistent_palette_if_needed, Option.map_none, List.nil_append,
        List.append_nil]
      exact ⟨_, rfl⟩

/-- The fetch step's filesystem trace is empty or a single read of the
palette file. -/
theorem fetch_events (u : Bool) (fs : String → FileState) (g : String) :
    (fetch_consistent_palette_if_needed u fs g).2 = []
    ∨ (fetch_consistent_palette_if_needed u fs g).2 = [.readFile g] := by
  cases u
  · left
    simp [fetch_consistent_palette_if_needed]
  · right
    simp only [fetch_consistent_palette_if_needed]
    cases PaletteMap.load_from_file_or_empty (fs g) <;> simp

/-- Claim C1: with `--cp`, a missing palette file is not an error (the
run starts from the empty palette map), while an existing malformed
palette file makes the run abort with a message naming the palette
file. -/
theorem fetch_palette_missing_ok_malformed_fatal
    (opt : Opt) (fsA fsM : String → FileState)
    (readAttrs : String → Except String FuncFrameAttrsMap)
    (inputs : List (List StackLine)) (outErr : Option String) (seed : Nat)
    (e : String)
    (hcp : opt.cp = true)
    (hA : fsA PALETTE_MAP_FILE = .absent)
    (hM : fsM PALETTE_MAP_FILE = .malformed e) :
    fetch_consistent_palette_if_needed opt.cp fsA PALETTE_MAP_FILE
      = (.ok (some []), [.readFile PALETTE_MAP_FILE])
    ∧ mainRun opt fsM readAttrs inputs outErr seed
      = (.panicked ("Error reading " ++ PALETTE_MAP_FILE ++ ": " ++ e),
         [.readFile PALETTE_MAP_FILE]) := by
  constructor
  · simp [fetch_consistent_palette_if_needed, hcp, hA,
      PaletteMap.load_from_file_or_empty]
  · have hfp : fetch_consistent_palette_if_needed opt.cp fsM PALETTE_MAP_FILE
        = (.error e, [.readFile PALETTE_MAP_FILE]) := by
      simp [fetch_consistent_palette_if_needed, hcp, hM,
        PaletteMap.load_from_file_or_empty]
    simp [mainRun, hfp]

theorem fetch_palette_missing_ok_malformed_fatal_witness :
    ({ Opt.default with cp := true } : Opt).cp = true
    ∧ (fun _ : String => FileState.absent) PALETTE_MAP_FILE = .absent
    ∧ (fun _ : String => FileState.malformed "bad syntax") PALETTE_MAP_FILE
      = .malformed "bad syntax"
    ∧ (fetch_consistent_palette_if_needed
        ({ Opt.default with cp := true } : Opt).cp
        (fun _ => FileState.absent) PALETTE_MAP_FILE
        = (.ok (some []), [.readFile PALETTE_MAP_FILE])
      ∧ mainRun { Opt.default with cp := true }
          (fun _ => FileState.malformed "bad syntax")
          (fun _ => Except.error "unused") [] none 0
        = (.panicked
            ("Error reading " ++ PALETTE_MAP_FILE ++ ": " ++ "bad syntax"),
           [.readFile PALETTE_MAP_FILE])) :=
  ⟨rfl, rfl, rfl,
    fetch_palette_missing_ok_malformed_fatal { Opt.default with cp := true }
      (fun _ => FileState.absent) (fun _ => FileState.malformed "bad syntax")
      (fun _ => Except.error "unused") [] none 0 "bad syntax" rfl rfl rfl⟩

/-- Claim C2: in consistent-palette mode the palette map is read from the
palette file exactly once before rendering and written back exactly once
after rendering; when rendering fails, the save step is never reached and
no write to the palette file occurs. -/
theorem palette_loaded_once_saved_once
    (opt : Opt) (fs : String → FileState)
    (readAttrs : String → Except String FuncFrameAttrsMap)
    (inputs : List (List StackLine)) (seed : Nat) (pm : PaletteMap)
    (e : String) (infiles : List String) (options : Options)
    (hcp : opt.cp = true)
    (hfile : fs PALETTE_MAP_FILE = .wellFormed pm)
    (hparts : opt.into_parts readAttrs = .ok (infiles, options)) :
    (∃ svg saved,
      mainRun opt fs readAttrs inputs none seed
        = (.completed (.ok ()),
           [.readFile PALETTE_MAP_FILE, .renderedSvg svg,
            .wroteFile PALETTE_MAP_FILE saved]))
    ∧ mainRun opt fs readAttrs inputs (some e) seed
      = (.completed (.error e), [.readFile PALETTE_MAP_FILE]) := by
  have hfp : fetch_consistent_palette_if_needed opt.cp fs PALETTE_MAP_FILE
      = (.ok (some pm), [.readFile PALETTE_MAP_FILE]) := by
    simp [fetch_consistent_palette_if_needed, hcp, hfile,
      PaletteMap.load_from_file_or_empty]
  constructor
  · simp only [mainRun, hfp, hparts, from_files, colorStage,
      save_consistent_palette_if_needed, Option.map_some, List.cons_append,
      List.nil_append, List.singleton_append, List.append_nil]
    exact ⟨_, _, rfl⟩
  · simp [mainRun, hfp, hparts]

theorem palette_loaded_once_saved_once_witness :
    cpOpt.cp = true
    ∧ (fun _ : String => FileState.wellFormed [("x", "rgb(1,2,3)")])
        PALETTE_MAP_FILE = .wellFormed [("x", "rgb(1,2,3)")]
    ∧ cpOpt.into_parts (fun _ => Except.error "unused")
      = .ok (cpParts.1, cpParts.2)
    ∧ ((∃ svg saved,
        mainRun cpOpt (fun _ => FileState.wellFormed [("x", "rgb(1,2,3)")])
            (fun _ => Except.error "unused")
            [[⟨["a"], 1, 0⟩]] none 0
          = (.completed (.ok ()),
             [.readFile PALETTE_MAP_FILE, .renderedSvg svg,
              .wroteFile PALETTE_MAP_FILE saved]))
      ∧ mainRun cpOpt (fun _ => FileState.wellFormed [("x", "rgb(1,2,3)")])
          (fun _ => Except.error "unused") [[⟨["a"], 1, 0⟩]]
          (some "broken pipe") 0
        = (.completed (.error "broken pipe"),
           [.readFile PALETTE_MAP_FILE])) :=
  ⟨rfl, rfl, rfl,
    palette_loaded_once_saved_once cpOpt
      (fun _ => FileState.wellFormed [("x", "rgb(1,2,3)")])
      (fun _ => Except.error "unused") [[⟨["a"], 1, 0⟩]] 0
      [("x", "rgb(1,2,3)")] "broken pipe" cpParts.1 cpParts.2
      rfl rfl rfl⟩

/-- Claim C10: a supplied `--nameattr` file that cannot be read or parsed
makes the run panic with a message naming the file, before any SVG is
produced; without the flag, `Options.func_frameattrs` keeps its default
(empty) value. -/
theorem nameattr_error_panics_else_default
    (optS optN : Opt) (fs : String → FileState)
    (readAttrs : String → Except String FuncFrameAttrsMap)
    (inputs : List (List StackLine)) (outErr : Option String) (seed : Nat)
    (f e : String) (pmopt : Option PaletteMap)
    (hf : optS.nameattr_file = some f)
    (hr : readAttrs f = .error e)
    (hfetch : (fetch_consistent_palette_if_needed optS.cp fs
        PALETTE_MAP_FILE).1 = .ok pmopt)
    (hn : optN.nameattr_file = none) :
    (mainRun optS fs readAttrs inputs outErr seed
       = (.panicked ("Error reading " ++ f ++ ": " ++ e),
          (fetch_consistent_palette_if_needed optS.cp fs PALETTE_MAP_FILE).2)
     ∧ ∀ svg, RunEvent.renderedSvg svg
         ∉ (mainRun optS fs readAttrs inputs outErr seed).2)
    ∧ (optN.into_parts readAttrs).map (fun r => r.2.func_frameattrs)
      = .ok Options.default.func_frameattrs := by
  have hip : optS.into_parts readAttrs
      = .error ("Error reading " ++ f ++ ": " ++ e) := by
    simp [Opt.into_parts, hf, hr]
  have hm : mainRun optS fs readAttrs inputs outErr seed
      = (.panicked ("Error reading " ++ f ++ ": " ++ e),
         (fetch_consistent_palette_if_needed optS.cp fs
           PALETTE_MAP_FILE).2) := by
    rcases hfe : fetch_consistent_palette_if_needed optS.cp fs
        PALETTE_MAP_FILE with ⟨res, evs⟩
    rw [hfe] at hfetch
    simp only at hfetch
    subst hfetch
    simp [mainRun, hfe, hip]
  refine ⟨⟨hm, ?_⟩, ?_⟩
  · intro svg
    rw [hm]
    rcases fetch_events optS.cp fs PALETTE_MAP_FILE with h | h <;> simp [h]
  · by_cases hi : optN.inverted <;> by_cases ht : optN.title = DEFAULT_TITLE
      <;> simp [Opt.into_parts, hn, Opt.into_parts_rest, hi, ht, Except.map,
        Options.default]

theorem no_cp_no_palette_file_io_witness :
    Opt.default.cp = false
    ∧ (fetch_consistent_palette_if_needed Opt.default.cp
        (fun _ => FileState.absent) "palette.map" = (.ok none, [])
      ∧ save_consistent_palette_if_needed none "palette.map" = (.ok (), [])
      ∧ ((mainRun Opt.default (fun _ => FileState.absent)
            (fun _ => Except.error "unused") [[⟨["a"], 1, 0⟩]] none 0).2 = []
         ∨ ∃ svg, (mainRun Opt.default (fun _ => FileState.absent)
            (fun _ => Except.error "unused")
            [[⟨["a"], 1, 0⟩]] none 0).2 = [.renderedSvg svg])) :=
  ⟨rfl, no_cp_no_palette_file_io Opt.default (fun _ => FileState.absent)
    (fun _ => Except.error "unused") [[⟨["a"], 1, 0⟩]] none 0
    "palette.map" rfl⟩

theorem nameattr_error_panics_else_default_witness :
    attrOpt.nameattr_file = some "attrs.txt"
    ∧ (fun _ : String => (Except.error "parse error" :
        Except String FuncFrameAttrsMap)) "attrs.txt" = .error "parse error"
    ∧ (fetch_consistent_palette_if_needed attrOpt.cp
        (fun _ => FileState.absent) PALETTE_MAP_FILE).1 = .ok none
    ∧ Opt.default.nameattr_file = none
    ∧ ((mainRun attrOpt (fun _ => FileState.absent)
          (fun _ => Except.error "parse error") [] none 0
        = (.panicked ("Error reading " ++ "attrs.txt" ++ ": "
            ++ "parse error"),
           (fetch_consistent_palette_if_needed attrOpt.cp
             (fun _ => FileState.absent) PALETTE_MAP_FILE).2)
       ∧ ∀ svg, RunEvent.renderedSvg svg
           ∉ (mainRun attrOpt (fun _ => FileState.absent)
               (fun _ => Except.error "parse error") [] none 0).2)
      ∧ (Opt.default.into_parts (fun _ => Except.error "parse error")).map
          (fun r => r.2.func_frameattrs)
        = .ok Options.default.func_frameattrs) :=
  ⟨rfl, rfl, rfl, rfl,
    nameattr_error_panics_else_default attrOpt Opt.default
      (fun _ => FileState.absent) (fun _ => Except.error "parse error")
      [] none 0 "attrs.txt" "parse error" none rfl rfl rfl rfl⟩
